import Mathlib

/-!
Verification of the Chronicle storage engine (package `internal/storage`
plus its collaborators) against its natural-language specification.

The Go source is shallowly embedded as follows.

* The SQLite database is a record of table contents (lists of rows, in
  insertion order).  `PRIMARY KEY`, `UNIQUE` and `FOREIGN KEY` constraints
  are modelled as explicit checks performed by the insert operations, and
  `ON DELETE CASCADE` is performed by the delete operations.
* Timestamps: the code always stores timestamps as RFC3339 UTC strings of
  a fixed width and compares them lexicographically in SQL, which agrees
  with chronological order of the instants.  A timestamp is therefore
  modelled as a `Nat`; the value `0` models the zero `time.Time`
  (`Timestamp.IsZero()`), which `AddEvent` replaces with the current time.
* `crypto/rand.Read` is modelled by an explicit entropy source: a list of
  bytes consumed by `generateID`.  A list shorter than four bytes models a
  failing read.
* Go `error` returns are modelled with `Except String`; fallible store
  operations return the resulting store next to the `Except` so that the
  rollback behaviour of transactions (the deferred `tx.Rollback()`) is
  visible: an error inside a transaction returns the original store.
* `net/url.Parse` followed by `URL.Hostname()` is modelled by
  `extractDomain` below, covering the fragment of the parser this
  repository exercises (scheme splitting, authority extraction, host-name
  validation, port stripping).  Percent-escape decoding and user-info
  validation are not modelled; host case is preserved exactly as Go does.
-/

/-- One row of the `events` table (Go struct `storage.Event`). -/
structure Event where
  id : String
  url : String
  title : String
  domain : String
  ts : Nat
  source : String
  browser : String
  contentHash : String
  hasBody : Bool
  hasEmbed : Bool
  deriving DecidableEq, Repr

/-- One row of the `content` table (Go struct `storage.Content` plus the
stored `byte_size` column; the `format` column always keeps its schema
default and is not modelled). -/
structure Content where
  eventId : String
  body : String
  byteSize : Nat
  deriving DecidableEq, Repr

/-- One row of the `events_fts` full-text index table. -/
structure FtsEntry where
  eventId : String
  title : String
  url : String
  deriving DecidableEq, Repr

/-- One row of the `exclusions` table. -/
structure ExclusionRule where
  ruleType : String
  ruleValue : String
  reason : String
  isDefault : Bool
  deriving DecidableEq, Repr

/-- One row of the `schema_migrations` table. -/
structure SchemaMigration where
  version : Nat
  name : String
  deriving DecidableEq, Repr

/-- The persistent database state: the tables the storage engine reads and
writes.  The `config`, `embedding_metadata` and `audit_log` tables are
created by the initial migration but never touched by the code under
verification, so they are not modelled. -/
structure DB where
  events : List Event
  content : List Content
  fts : List FtsEntry
  exclusions : List ExclusionRule
  schemaMigrations : List SchemaMigration
  deriving DecidableEq, Repr

/-- A database with all tables empty (a freshly created file). -/
def emptyDB : DB :=
  { events := [], content := [], fts := [], exclusions := [], schemaMigrations := [] }

/-- Compiled form of the regex exclusion patterns.  The seeded denylist
contains exactly two regex rules, whose Go `regexp` semantics (unanchored
search with a trailing dollar anchor) reduce to suffix tests.  Patterns
outside this set are treated as uncompilable and skipped at load time; no
claim depends on other patterns. -/
inductive RegexPat where
  | dotXxxSuffix
  | pornhubSuffix
  deriving DecidableEq, Repr

/-- Suffix test on character lists: does `l` end with `suf`. -/
def hasSuffix (l suf : List Char) : Bool :=
  decide (l.reverse.take suf.length = suf.reverse)

/-- Model of `regexp.Regexp.MatchString` for the two compiled patterns. -/
def RegexPat.matchString : RegexPat → String → Bool
  | .dotXxxSuffix, s => hasSuffix s.toList ".xxx".toList
  | .pornhubSuffix, s => hasSuffix s.toList "pornhub.com".toList

/-- Model of `regexp.Compile` restricted to the seeded patterns; any other
pattern is reported as failing to compile (Go skips rules whose pattern
fails to compile). -/
def compileRegex (pat : String) : Option RegexPat :=
  if pat == ".*\\.xxx$" then some .dotXxxSuffix
  else if pat == ".*pornhub\\.com$" then some .pornhubSuffix
  else none

/-- The in-process store handle: the database plus the exclusion-rule
cache loaded once at construction (Go struct `SQLiteStore`; the prepared
statements carry no state of their own and are not modelled). -/
structure SQLiteStore where
  db : DB
  domainExclusions : List String
  regexExclusions : List RegexPat
  deriving DecidableEq, Repr

/-- `loadExclusions`: reads the `exclusions` table in order and fills the
two caches; regex rules that do not compile are skipped. -/
def loadExclusions (db : DB) : List String × List RegexPat :=
  db.exclusions.foldl
    (fun acc r =>
      if r.ruleType == "domain" then (acc.1 ++ [r.ruleValue], acc.2)
      else if r.ruleType == "regex" then
        match compileRegex r.ruleValue with
        | some p => (acc.1, acc.2 ++ [p])
        | none => acc
      else acc)
    ([], [])

/-- `NewSQLiteStore`: wraps an already-migrated database and loads the
exclusion caches (`initFTS` only creates the index table if absent, which
is implicit in the model). -/
def NewSQLiteStore (db : DB) : SQLiteStore :=
  { db := db
    domainExclusions := (loadExclusions db).1
    regexExclusions := (loadExclusions db).2 }

/-- `isExcluded`: a domain is blocked when it equals one of the cached
domain rules or matches one of the compiled regex rules. -/
def isExcluded (s : SQLiteStore) (domain : String) : Bool :=
  s.domainExclusions.any (fun d => d == domain) ||
  s.regexExclusions.any (fun re => re.matchString domain)

/-- Lowercase hex digit of a value below sixteen (`encoding/hex`). -/
def hexDigit (n : Nat) : Char :=
  if n < 10 then Char.ofNat (48 + n) else Char.ofNat (87 + n)

/-- Two lowercase hex characters of one byte, high nibble first. -/
def byteHex (b : Nat) : List Char :=
  [hexDigit (b / 16), hexDigit (b % 16)]

/-- `hex.EncodeToString` on a byte list. -/
def hexEncode (bs : List Nat) : String :=
  String.mk (bs.foldr (fun b acc => byteHex b ++ acc) [])

/-- `generateID`: reads four bytes from the entropy source and produces
`CHR-` followed by their eight-character hex encoding; an entropy source
that cannot supply four bytes models a failing `rand.Read`. -/
def generateID (entropy : List Nat) : Option String :=
  match entropy with
  | b0 :: b1 :: b2 :: b3 :: _ =>
      some ("CHR-" ++ hexEncode [b0 % 256, b1 % 256, b2 % 256, b3 % 256])
  | _ => none

/-! ### Model of `net/url.Parse` + `URL.Hostname()` (`extractDomain`) -/

/-- Outcome of scanning for a URL scheme (`getScheme` in `net/url`). -/
inductive SchemeScan where
  | noScheme
  | afterColon (rest : List Char)
  | malformed
  deriving DecidableEq, Repr

/-- Scheme scan: a scheme is a leading alphabetic character followed by
alphanumerics, plus, minus or dot, terminated by a colon.  A leading colon
is a parse error (missing protocol scheme); any other non-scheme character
means the input has no scheme. -/
def scanScheme : List Char → Bool → SchemeScan
  | [], _ => .noScheme
  | c :: rest, isFirst =>
    if c == ':' then (if isFirst then .malformed else .afterColon rest)
    else if c.isAlpha then scanScheme rest false
    else if !isFirst && (c.isDigit || c == '+' || c == '-' || c == '.') then
      scanScheme rest false
    else .noScheme

/-- Characters Go accepts unescaped in a host component: non-ASCII,
ASCII alphanumerics, the unreserved marks, the sub-delims (the apostrophe
is omitted from the model), colon, brackets, angle brackets, double quote
and the percent sign that introduces an escape. -/
def isHostChar (c : Char) : Bool :=
  c.toNat ≥ 128 || c.isAlphanum ||
  ['-', '.', '_', '~', '!', '$', '&', '(', ')', '*', '+',
   ',', ';', '=', ':', '[', ']', '<', '>', '"', '%'].contains c

/-- `validOptionalPort`: empty, or a colon followed by decimal digits. -/
def validOptionalPort (p : List Char) : Bool :=
  match p with
  | [] => true
  | ':' :: rest => rest.all Char.isDigit
  | _ => false

/-- Strips the user-info part of an authority: everything up to and
including the last commercial at sign. -/
def hostAfterUserinfo (auth : List Char) : List Char :=
  (auth.reverse.takeWhile (fun c => c ≠ '@')).reverse

/-- `parseHost`: validates a host-and-optional-port string, returning it
unchanged on success and `none` on a parse error (invalid port, missing
closing bracket, or a forbidden host character). -/
def parseHostChars (host : List Char) : Option (List Char) :=
  if host.head? == some '[' then
    let beforeBracket := host.takeWhile (fun c => c ≠ ']')
    let rest := host.drop beforeBracket.length
    match rest with
    | [] => none
    | _ :: colonPort =>
      if validOptionalPort colonPort && host.all isHostChar then some host else none
  else
    let port := (host.reverse.takeWhile (fun c => c ≠ ':')).reverse
    let hasColon := host.contains ':'
    if hasColon && !(port.all Char.isDigit) then none
    else if host.all isHostChar then some host else none

/-- `stripPort` as used by `URL.Hostname()`: cut at the first colon, or
return the bracketed address without its brackets. -/
def stripPort (hostport : List Char) : List Char :=
  if hostport.contains ':' then
    if hostport.contains ']' then
      let upToBracket := hostport.takeWhile (fun c => c ≠ ']')
      if upToBracket.head? == some '[' then upToBracket.tail else upToBracket
    else hostport.takeWhile (fun c => c ≠ ':')
  else hostport

/-- `extractDomain`: parse the raw URL and return the hostname, or the
empty string when parsing fails or the URL carries no authority.  Host
case is preserved; no normalization is applied. -/
def extractDomain (rawURL : String) : String :=
  let cs := rawURL.toList
  if cs.any (fun c => c.toNat < 32 || c.toNat == 127) then ""
  else
    let restOpt : Option (List Char) :=
      match scanScheme cs true with
      | .malformed => none
      | .afterColon r => some r
      | .noScheme => some cs
    match restOpt with
    | none => ""
    | some rest =>
      if rest.take 2 = ['/', '/'] then
        let auth := (rest.drop 2).takeWhile (fun c => c ≠ '/' && c ≠ '?' && c ≠ '#')
        match parseHostChars (hostAfterUserinfo auth) with
        | none => ""
        | some h => String.mk (stripPort h)
      else ""

/-! ### Row-level SQL operations -/

/-- `INSERT INTO events ...`: fails when the `id` primary key is taken. -/
def insertEventRow (db : DB) (e : Event) : Except String DB :=
  if db.events.any (fun x => x.id == e.id) then
    .error "UNIQUE constraint failed: events.id"
  else .ok { db with events := db.events ++ [e] }

/-- `INSERT INTO content ...`: fails when the `event_id` primary key is
taken or the foreign key to `events` is not satisfied. -/
def insertContentRow (db : DB) (c : Content) : Except String DB :=
  if db.content.any (fun x => x.eventId == c.eventId) then
    .error "UNIQUE constraint failed: content.event_id"
  else if !(db.events.any (fun e => e.id == c.eventId)) then
    .error "FOREIGN KEY constraint failed"
  else .ok { db with content := db.content ++ [c] }

/-! ### Event Store operations -/

/-- Defaults a zero (unset) timestamp to the current time, as both add
operations do before persisting. -/
def withDefaultTs (e : Event) (now : Nat) : Event :=
  if e.ts == 0 then { e with ts := now } else e

/-- `AddEvent`: re-derives the domain, silently skips excluded domains,
generates a fresh identifier, defaults a zero timestamp to `now`, inserts
the event row and mirrors title and URL into the full-text index.  The
two inserts are separate statements (no transaction); the index insert
cannot fail in the model, so the partial state it could leave behind in
Go is not reachable here. -/
def AddEvent (s : SQLiteStore) (e : Event) (rnd : List Nat) (now : Nat) :
    Except String Event × SQLiteStore :=
  let e1 := { e with domain := extractDomain e.url }
  if isExcluded s e1.domain then (.ok e1, s)
  else
    match generateID rnd with
    | none => (.error "generate ID: entropy source failed", s)
    | some id =>
      let e2 := { e1 with id := id }
      let e3 := withDefaultTs e2 now
      match insertEventRow s.db e3 with
      | .error msg => (.error ("insert event: " ++ msg), s)
      | .ok db1 =>
        (.ok e3, { s with db := { db1 with fts := db1.fts ++ [⟨e3.id, e3.title, e3.url⟩] } })

/-- `AddEventWithContent`: like `AddEvent` but sets the has-body flag,
records the byte size of the body, and performs the event insert, content
insert and index insert inside one transaction: any failure takes the
deferred-rollback path and returns the original store. -/
def AddEventWithContent (s : SQLiteStore) (e : Event) (body : String)
    (rnd : List Nat) (now : Nat) : Except String Event × SQLiteStore :=
  let e1 := { e with domain := extractDomain e.url }
  if isExcluded s e1.domain then (.ok e1, s)
  else
    match generateID rnd with
    | none => (.error "generate ID: entropy source failed", s)
    | some id =>
      let e2 := { e1 with id := id, hasBody := true }
      let e3 := withDefaultTs e2 now
      match insertEventRow s.db e3 with
      | .error msg => (.error ("insert event: " ++ msg), s)
      | .ok db1 =>
        match insertContentRow db1 ⟨e3.id, body, body.utf8ByteSize⟩ with
        | .error msg => (.error ("insert content: " ++ msg), s)
        | .ok db2 =>
          (.ok e3, { s with db := { db2 with fts := db2.fts ++ [⟨e3.id, e3.title, e3.url⟩] } })

/-! ### Search Engine -/

/-- The structured search query (Go struct `storage.SearchQuery`).  A zero
`since` or `until` models the zero `time.Time` (filter absent). -/
structure SearchQuery where
  query : String
  domain : String
  source : String
  since : Nat
  untilTs : Nat
  limit : Int
  offset : Int
  deriving DecidableEq, Repr

/-- The optional structured conditions shared by both search paths:
domain equality, source equality, and the inclusive time range. -/
def matchesFilters (q : SearchQuery) (e : Event) : Bool :=
  (q.domain == "" || e.domain == q.domain) &&
  (q.source == "" || e.source == q.source) &&
  (q.since == 0 || decide (q.since ≤ e.ts)) &&
  (q.untilTs == 0 || decide (e.ts ≤ q.untilTs))

/-- Timestamp-descending order on events (`ORDER BY ts DESC`). -/
def tsDesc (a b : Event) : Prop := b.ts ≤ a.ts

instance : DecidableRel tsDesc := fun a b => Nat.decLe b.ts a.ts

instance : IsTotal Event tsDesc :=
  ⟨fun a b => (Nat.le_total b.ts a.ts).imp id id⟩

instance : IsTrans Event tsDesc :=
  ⟨fun _ _ _ hab hbc => Nat.le_trans hbc hab⟩

/-- Splits a character list into maximal runs of characters rejected by
`p`, dropping the separators (used to model `strings.Fields` and the
`unicode61` tokenizer). -/
def splitWhen (p : Char → Bool) : List Char → List Char → List (List Char)
  | [], acc => if acc = [] then [] else [acc.reverse]
  | c :: rest, acc =>
    if p c then
      if acc = [] then splitWhen p rest [] else acc.reverse :: splitWhen p rest []
    else splitWhen p rest (c :: acc)

/-- A full-text row matches when any whitespace-separated token of the
query is a prefix of some alphanumeric word of the indexed title or URL
(the OR-joined quoted prefix tokens built by `ftsQuery`). -/
def ftsRowMatch (queryTokens : List (List Char)) (f : FtsEntry) : Bool :=
  let ws := splitWhen (fun c => !c.isAlphanum) f.title.toList [] ++
            splitWhen (fun c => !c.isAlphanum) f.url.toList []
  queryTokens.any (fun t => ws.any (fun w => t.isPrefixOf w))

/-- `searchFTS`: full-text lookup joined back to the event table with the
structured conditions.  The relevance ranking (`ORDER BY rank`, bm25) is
engine-defined and not modelled: results keep table order.  No claim
depends on this path. -/
def searchFTS (s : SQLiteStore) (q : SearchQuery) : List Event :=
  let toks := splitWhen (fun c => c.isWhitespace) q.query.toList []
  let matchedIds := (s.db.fts.filter (ftsRowMatch toks)).map (fun f => f.eventId)
  let joined := s.db.events.filter (fun e => matchedIds.contains e.id && matchesFilters q e)
  (joined.drop q.offset.toNat).take q.limit.toNat

/-- `searchFiltered`: plain filtered scan ordered by timestamp descending,
then `OFFSET`/`LIMIT` (SQLite treats a negative offset as zero, which
`Int.toNat` reproduces; a negative limit is unreachable because
`SearchEvents` replaces non-positive limits). -/
def searchFiltered (s : SQLiteStore) (q : SearchQuery) : List Event :=
  let ordered := (s.db.events.filter (matchesFilters q)).insertionSort tsDesc
  (ordered.drop q.offset.toNat).take q.limit.toNat

/-- `SearchEvents`: defaults a non-positive limit to fifty, then uses the
full-text path when a free-text term is present and the plain filtered
scan otherwise. -/
def SearchEvents (s : SQLiteStore) (q : SearchQuery) : List Event :=
  let q1 := if q.limit ≤ 0 then { q with limit := 50 } else q
  if q1.query ≠ "" then searchFTS s q1 else searchFiltered s q1

/-! ### Retention Engine -/

/-- `PruneExpired`: deletes the full-text entries of every event strictly
older than the cutoff, then the event rows themselves (content rows
cascade via the foreign key), and returns how many event rows the second
delete removed. -/
def PruneExpired (s : SQLiteStore) (olderThan : Nat) : Nat × SQLiteStore :=
  let expiredIds := (s.db.events.filter (fun e => decide (e.ts < olderThan))).map (fun e => e.id)
  let fts1 := s.db.fts.filter (fun f => !expiredIds.contains f.eventId)
  let content1 := s.db.content.filter (fun c => !expiredIds.contains c.eventId)
  let remaining := s.db.events.filter (fun e => !decide (e.ts < olderThan))
  ((s.db.events.filter (fun e => decide (e.ts < olderThan))).length,
   { s with db := { s.db with events := remaining, content := content1, fts := fts1 } })

/-- `PurgeAll`: drops the full-text table, empties `content` and `events`,
and recreates the (empty) full-text table; every other table is left
untouched. -/
def PurgeAll (s : SQLiteStore) : SQLiteStore :=
  { s with db := { s.db with events := [], content := [], fts := [] } }

/-- Modelled from the spec: the `CountExpired` implementation is not among
the provided source files (only its caller in the prune command,
`internal/cli/prune.go`, is).  Spec section 4.5 requires a cheap,
side-effect-free operation counting the events older than the cutoff so a
confirmation prompt can be informed without deleting twice. -/
def CountExpired (s : SQLiteStore) (olderThan : Nat) : Nat × SQLiteStore :=
  ((s.db.events.filter (fun e => decide (e.ts < olderThan))).length, s)

/-- Aggregate statistics (`GetStats`); only the totals are modelled, the
oldest/newest timestamps and top-domain listing are read-only derived
data no claim depends on. -/
structure Stats where
  totalEvents : Nat
  totalContent : Nat
  deriving DecidableEq, Repr

/-- `GetStats`: row counts of `events` and `content`. -/
def GetStats (s : SQLiteStore) : Stats :=
  { totalEvents := s.db.events.length, totalContent := s.db.content.length }

/-! ### Schema Manager (migrations) -/

/-- The curated default exclusion rules seeded by the initial migration,
in source order. -/
def defaultExclusions : List ExclusionRule :=
  [⟨"domain", "chase.com", "Banking - financial privacy", true⟩,
   ⟨"domain", "bankofamerica.com", "Banking - financial privacy", true⟩,
   ⟨"domain", "wellsfargo.com", "Banking - financial privacy", true⟩,
   ⟨"domain", "citi.com", "Banking - financial privacy", true⟩,
   ⟨"domain", "capitalone.com", "Banking - financial privacy", true⟩,
   ⟨"domain", "usbank.com", "Banking - financial privacy", true⟩,
   ⟨"domain", "schwab.com", "Banking - financial privacy", true⟩,
   ⟨"domain", "fidelity.com", "Banking - financial privacy", true⟩,
   ⟨"domain", "vanguard.com", "Banking - financial privacy", true⟩,
   ⟨"domain", "paypal.com", "Payment - financial privacy", true⟩,
   ⟨"domain", "venmo.com", "Payment - financial privacy", true⟩,
   ⟨"domain", "1password.com", "Password manager - credential privacy", true⟩,
   ⟨"domain", "bitwarden.com", "Password manager - credential privacy", true⟩,
   ⟨"domain", "lastpass.com", "Password manager - credential privacy", true⟩,
   ⟨"domain", "dashlane.com", "Password manager - credential privacy", true⟩,
   ⟨"domain", "accounts.google.com", "Auth provider - credential privacy", true⟩,
   ⟨"domain", "login.microsoftonline.com", "Auth provider - credential privacy", true⟩,
   ⟨"domain", "auth0.com", "Auth provider - credential privacy", true⟩,
   ⟨"domain", "okta.com", "Auth provider - credential privacy", true⟩,
   ⟨"domain", "mychart.com", "Healthcare - HIPAA privacy", true⟩,
   ⟨"domain", "patient.myuhc.com", "Healthcare - HIPAA privacy", true⟩,
   ⟨"domain", "irs.gov", "Tax - financial privacy", true⟩,
   ⟨"domain", "turbotax.intuit.com", "Tax - financial privacy", true⟩,
   ⟨"regex", ".*\\.xxx$", "Adult content exclusion", true⟩,
   ⟨"regex", ".*pornhub\\.com$", "Adult content exclusion", true⟩]

/-- `INSERT OR IGNORE INTO exclusions ...`: the `UNIQUE(rule_type,
rule_value)` constraint makes a duplicate insert a silent no-op. -/
def insertOrIgnoreExclusion (db : DB) (r : ExclusionRule) : DB :=
  if db.exclusions.any (fun x => x.ruleType == r.ruleType && x.ruleValue == r.ruleValue) then db
  else { db with exclusions := db.exclusions ++ [r] }

/-- `seedDefaultExclusions`: inserts the curated denylist with the
insert-if-absent strategy, so re-running never duplicates rows. -/
def seedDefaultExclusions (db : DB) : DB :=
  defaultExclusions.foldl insertOrIgnoreExclusion db

/-- `migrateV001`: creates every table and index with `IF NOT EXISTS`
(implicit in the model, where the tables always exist) and seeds the
default exclusion rules. -/
def migrateV001 (db : DB) : DB :=
  seedDefaultExclusions db

/-- `isApplied`: whether a migration version is already recorded. -/
def isApplied (db : DB) (version : Nat) : Bool :=
  db.schemaMigrations.any (fun m => m.version == version)

/-- One step of `MigrationRunner.Run`: skip a recorded version, otherwise
apply the migration and record it in the same transaction. -/
def runMigration (db : DB) (version : Nat) (name : String) (apply : DB → DB) : DB :=
  if isApplied db version then db
  else
    let db1 := apply db
    { db1 with schemaMigrations := db1.schemaMigrations ++ [⟨version, name⟩] }

/-- `MigrationRunner.Run`: enables WAL mode and foreign keys (no model
state), ensures the tracking table exists, and applies the registered
migrations in order; the registered list holds exactly the initial
schema migration. -/
def migrationRun (db : DB) : DB :=
  runMigration db 1 "initial_schema" migrateV001

/-- A freshly migrated database and the store opened on it. -/
def seededDB : DB := migrationRun emptyDB

/-- The store opened on a freshly migrated database: the exclusion caches
hold exactly the seeded denylist. -/
def seededStore : SQLiteStore := NewSQLiteStore seededDB

/-- A store over an empty, rule-free database (used by concrete runs). -/
def emptyStore : SQLiteStore := NewSQLiteStore emptyDB

/-! ## Helper lemmas -/

theorem withDefaultTs_domain (e : Event) (now : Nat) :
    (withDefaultTs e now).domain = e.domain := by
  unfold withDefaultTs; split <;> rfl

theorem withDefaultTs_id (e : Event) (now : Nat) :
    (withDefaultTs e now).id = e.id := by
  unfold withDefaultTs; split <;> rfl

theorem withDefaultTs_hasBody (e : Event) (now : Nat) :
    (withDefaultTs e now).hasBody = e.hasBody := by
  unfold withDefaultTs; split <;> rfl

theorem withDefaultTs_title (e : Event) (now : Nat) :
    (withDefaultTs e now).title = e.title := by
  unfold withDefaultTs; split <;> rfl

theorem withDefaultTs_url (e : Event) (now : Nat) :
    (withDefaultTs e now).url = e.url := by
  unfold withDefaultTs; split <;> rfl

/-- Shape of a successful `AddEvent`: either the excluded silent skip
(store untouched, event returned with only the domain set), or a fresh
row was appended whose identifier was free in the event table. -/
theorem addEvent_ok_cases (s : SQLiteStore) (e : Event) (rnd : List Nat) (now : Nat)
    (e' : Event) (s' : SQLiteStore) (h : AddEvent s e rnd now = (.ok e', s')) :
    (isExcluded s (extractDomain e.url) = true ∧
     e' = { e with domain := extractDomain e.url } ∧ s' = s) ∨
    (isExcluded s (extractDomain e.url) = false ∧
     s'.db.events = s.db.events ++ [e'] ∧
     e'.domain = extractDomain e.url ∧
     s.db.events.any (fun x => x.id == e'.id) = false) := by
  simp only [AddEvent] at h
  split at h
  · rename_i hc
    simp only [Prod.mk.injEq, Except.ok.injEq] at h
    obtain ⟨he, hs⟩ := h
    exact Or.inl ⟨hc, he.symm, hs.symm⟩
  · rename_i hc
    rw [Bool.not_eq_true] at hc
    split at h
    · simp at h
    · split at h
      · simp at h
      · rename_i db1 heq
        unfold insertEventRow at heq
        split at heq
        · simp at heq
        · rename_i hfree
          rw [Bool.not_eq_true] at hfree
          simp only [Except.ok.injEq] at heq
          simp only [Prod.mk.injEq, Except.ok.injEq] at h
          obtain ⟨he, hs⟩ := h
          subst he
          refine Or.inr ⟨hc, ?_, by rw [withDefaultTs_domain], hfree⟩
          rw [← hs, ← heq]

/-! ## Claims -/

/-- C1: for every event whose derived domain is excluded by a loaded
exclusion rule, `AddEvent` and `AddEventWithContent` return success with
no error, persist nothing (the store, hence the event, content and
search-index tables, is returned unchanged) and leave the event
identifier unset. -/
theorem addEvent_excluded_silent_skip
    (s : SQLiteStore) (e : Event) (body : String) (rnd : List Nat) (now : Nat)
    (hexcl : isExcluded s (extractDomain e.url) = true) (hid : e.id = "") :
    AddEvent s e rnd now = (.ok { e with domain := extractDomain e.url }, s) ∧
    AddEventWithContent s e body rnd now = (.ok { e with domain := extractDomain e.url }, s) ∧
    Event.id { e with domain := extractDomain e.url } = "" := by
  refine ⟨?_, ?_, hid⟩ <;> simp [AddEvent, AddEventWithContent, hexcl]

/-- An event on an excluded banking domain, as captured by a passive path
(identifier unset, zero timestamp). -/
def wExcludedEvent : Event :=
  { id := "", url := "https://chase.com/login", title := "Chase", domain := ""
    ts := 0, source := "extension", browser := "chrome", contentHash := ""
    hasBody := false, hasEmbed := false }

/-- Witness for C1 at the seeded store and a `chase.com` event. -/
theorem addEvent_excluded_silent_skip_witness :
    isExcluded seededStore (extractDomain wExcludedEvent.url) = true ∧
    wExcludedEvent.id = "" ∧
    AddEvent seededStore wExcludedEvent [1, 2, 3, 4] 10 =
      (.ok { wExcludedEvent with domain := extractDomain wExcludedEvent.url }, seededStore) ∧
    AddEventWithContent seededStore wExcludedEvent "body" [1, 2, 3, 4] 10 =
      (.ok { wExcludedEvent with domain := extractDomain wExcludedEvent.url }, seededStore) :=
  ⟨by decide, rfl,
   (addEvent_excluded_silent_skip seededStore wExcludedEvent "body" [1, 2, 3, 4] 10
      (by decide) rfl).1,
   (addEvent_excluded_silent_skip seededStore wExcludedEvent "body" [1, 2, 3, 4] 10
      (by decide) rfl).2.1⟩

/-- C6: the storage core exposes a side-effect-free count of the events
strictly older than a cutoff: it returns the store unchanged, and its
count equals both the number of qualifying event rows and the count
`PruneExpired` would delete. -/
theorem countExpired_side_effect_free (s : SQLiteStore) (cutoff : Nat) :
    CountExpired s cutoff = ((PruneExpired s cutoff).1, s) ∧
    (CountExpired s cutoff).1 =
      (s.db.events.filter (fun e => decide (e.ts < cutoff))).length :=
  ⟨rfl, rfl⟩

/-- C8: `PurgeAll` empties the event, content and full-text tables
(leaving both stats counts at zero) while the exclusion rules, the
schema-version records and the cached exclusion rules are unchanged. -/
theorem purgeAll_spec (s : SQLiteStore) :
    (PurgeAll s).db.events = [] ∧
    (PurgeAll s).db.content = [] ∧
    (PurgeAll s).db.fts = [] ∧
    (PurgeAll s).db.exclusions = s.db.exclusions ∧
    (PurgeAll s).db.schemaMigrations = s.db.schemaMigrations ∧
    (PurgeAll s).domainExclusions = s.domainExclusions ∧
    (PurgeAll s).regexExclusions = s.regexExclusions ∧
    (GetStats (PurgeAll s)).totalEvents = 0 ∧
    (GetStats (PurgeAll s)).totalContent = 0 :=
  ⟨rfl, rfl, rfl, rfl, rfl, rfl, rfl, rfl, rfl⟩

/-- Helper: when no event row qualifies, `PruneExpired` removes nothing
and performs no writes. -/
theorem pruneExpired_noop (s : SQLiteStore) (cutoff : Nat)
    (h : s.db.events.filter (fun e => decide (e.ts < cutoff)) = []) :
    PruneExpired s cutoff = (0, s) := by
  have hall := List.filter_eq_nil_iff.mp h
  have hkeep : s.db.events.filter (fun e => !decide (e.ts < cutoff)) = s.db.events := by
    refine List.filter_eq_self.mpr (fun a ha => ?_)
    simpa using hall a ha
  unfold PruneExpired
  rw [h, hkeep]
  simp

/-- C4: `PruneExpired` removes exactly the events strictly older than the
cutoff together with their content rows and search-index entries, leaves
every other row intact, returns the number of events removed, and a
second run with the same cutoff removes zero and performs no writes. -/
theorem pruneExpired_spec (s : SQLiteStore) (cutoff : Nat) :
    (PruneExpired s cutoff).1 =
      (s.db.events.filter (fun e => decide (e.ts < cutoff))).length ∧
    (PruneExpired s cutoff).2.db.events =
      s.db.events.filter (fun e => !decide (e.ts < cutoff)) ∧
    (PruneExpired s cutoff).2.db.fts =
      s.db.fts.filter (fun f =>
        !((s.db.events.filter (fun e => decide (e.ts < cutoff))).map
            (fun e => e.id)).contains f.eventId) ∧
    (PruneExpired s cutoff).2.db.content =
      s.db.content.filter (fun c =>
        !((s.db.events.filter (fun e => decide (e.ts < cutoff))).map
            (fun e => e.id)).contains c.eventId) ∧
    (PruneExpired s cutoff).2.db.exclusions = s.db.exclusions ∧
    (PruneExpired s cutoff).2.db.schemaMigrations = s.db.schemaMigrations ∧
    PruneExpired (PruneExpired s cutoff).2 cutoff = (0, (PruneExpired s cutoff).2) := by
  refine ⟨rfl, rfl, rfl, rfl, rfl, rfl, ?_⟩
  refine pruneExpired_noop _ cutoff ?_
  show (s.db.events.filter fun e => !decide (e.ts < cutoff)).filter
      (fun e => decide (e.ts < cutoff)) = []
  simp [List.filter_filter]

/-- C3: running the schema migration twice is a no-op the second time (a
recorded version is skipped), a fresh database ends with exactly one
schema-version row for the single registered migration, and re-seeding
leaves each curated default exclusion rule present exactly once. -/
theorem migration_idempotent :
    (∀ db : DB, migrationRun (migrationRun db) = migrationRun db) ∧
    seededDB.schemaMigrations = [⟨1, "initial_schema"⟩] ∧
    seededDB.exclusions = defaultExclusions ∧
    (migrationRun seededDB).exclusions = defaultExclusions ∧
    (migrationRun seededDB).schemaMigrations = [⟨1, "initial_schema"⟩] ∧
    (∀ r ∈ defaultExclusions, defaultExclusions.count r = 1) := by
  have key : ∀ db : DB, isApplied (migrationRun db) 1 = true := by
    intro db
    unfold migrationRun runMigration
    by_cases h : isApplied db 1 = true
    · simp [h]
    · simp only [h, if_neg, Bool.not_eq_true, if_false]
      simp [isApplied, List.any_append]
  have noop : ∀ db : DB, migrationRun (migrationRun db) = migrationRun db := by
    intro db
    show runMigration (migrationRun db) 1 "initial_schema" migrateV001 = migrationRun db
    unfold runMigration
    rw [if_pos (key db)]
  refine ⟨noop, by decide, by decide, by decide, by decide, ?_⟩
  intro r hr
  exact List.count_eq_one_of_mem (by decide) hr

/-- Witness for C3: the `chase.com` rule is seeded and appears exactly
once after a re-run of the migration. -/
theorem migration_idempotent_witness :
    (⟨"domain", "chase.com", "Banking - financial privacy", true⟩ : ExclusionRule) ∈
      defaultExclusions ∧
    defaultExclusions.count
      (⟨"domain", "chase.com", "Banking - financial privacy", true⟩ : ExclusionRule) = 1 :=
  ⟨by decide,
   migration_idempotent.2.2.2.2.2
     ⟨"domain", "chase.com", "Banking - financial privacy", true⟩ (by decide)⟩

/-- An event whose URL Go fails to parse (a space is not a valid host
character), with the identifier unset and a zero timestamp. -/
def badUrlEvent : Event :=
  { id := "", url := "https://exa mple.com/", title := "Bad", domain := "ignored"
    ts := 0, source := "manual", browser := "", contentHash := ""
    hasBody := false, hasEmbed := false }

/-- C5: whatever domain the caller supplied, a successfully added event
carries the domain re-derived from its URL at write time, and the row
persisted (when one is) is exactly that event; an unparsable URL derives
the empty domain and `AddEvent` still succeeds. -/
theorem addEvent_rederives_domain :
    (∀ (s : SQLiteStore) (e : Event) (rnd : List Nat) (now : Nat)
        (e' : Event) (s' : SQLiteStore),
       AddEvent s e rnd now = (.ok e', s') →
       e'.domain = extractDomain e.url ∧
       (s' = s ∨ s'.db.events = s.db.events ++ [e'])) ∧
    extractDomain "https://exa mple.com/" = "" ∧
    AddEvent emptyStore badUrlEvent [9, 9, 9, 9] 5 =
      (.ok { badUrlEvent with domain := "", id := "CHR-09090909", ts := 5 },
       { emptyStore with db :=
          { emptyStore.db with
            events := [{ badUrlEvent with domain := "", id := "CHR-09090909", ts := 5 }]
            fts := [⟨"CHR-09090909", "Bad", "https://exa mple.com/"⟩] } }) := by
  refine ⟨?_, by decide, by rfl⟩
  intro s e rnd now e' s' h
  rcases addEvent_ok_cases s e rnd now e' s' h with ⟨_, he, hs⟩ | ⟨_, hev, hdom, _⟩
  · subst he
    exact ⟨rfl, Or.inl hs⟩
  · exact ⟨hdom, Or.inr hev⟩

/-- A valid, non-excluded event with a caller-supplied stale domain and a
nonzero capture timestamp. -/
def wEvent5 : Event :=
  { id := "x0", url := "https://example.com/a", title := "T", domain := "stale"
    ts := 42, source := "manual", browser := "b", contentHash := ""
    hasBody := false, hasEmbed := false }

/-- The event as `AddEvent` persists it from `wEvent5`. -/
def wEvent5out : Event :=
  { wEvent5 with domain := "example.com", id := "CHR-01020304" }

/-- The store state after adding `wEvent5` to the empty store. -/
def wStore5out : SQLiteStore :=
  { emptyStore with db :=
    { emptyStore.db with
      events := [wEvent5out]
      fts := [⟨"CHR-01020304", "T", "https://example.com/a"⟩] } }

/-- Witness for C5: a concrete add re-derives the domain and persists the
returned event. -/
theorem addEvent_rederives_domain_witness :
    AddEvent emptyStore wEvent5 [1, 2, 3, 4] 10 = (.ok wEvent5out, wStore5out) ∧
    wEvent5out.domain = extractDomain wEvent5.url ∧
    (wStore5out = emptyStore ∨
     wStore5out.db.events = emptyStore.db.events ++ [wEvent5out]) :=
  ⟨rfl,
   (addEvent_rederives_domain.1 emptyStore wEvent5 [1, 2, 3, 4] 10 wEvent5out wStore5out rfl).1,
   (addEvent_rederives_domain.1 emptyStore wEvent5 [1, 2, 3, 4] 10 wEvent5out wStore5out rfl).2⟩

/-- C2: outside the excluded-domain skip, `AddEventWithContent` either
succeeds, appending in one transaction exactly the event row (has-body
flag set), the content row recording the byte size of the body, and the
search-index entry, or fails leaving the store exactly as it was: the
deferred rollback releases the transaction on every error path, so no
partial state (event without content, or index entry without event)
remains. -/
theorem addEventWithContent_atomic
    (s : SQLiteStore) (e : Event) (body : String) (rnd : List Nat) (now : Nat)
    (hexcl : isExcluded s (extractDomain e.url) = false) :
    (∀ e' s', AddEventWithContent s e body rnd now = (.ok e', s') →
       e'.hasBody = true ∧
       s'.db.events = s.db.events ++ [e'] ∧
       s'.db.content = s.db.content ++ [⟨e'.id, body, body.utf8ByteSize⟩] ∧
       s'.db.fts = s.db.fts ++ [⟨e'.id, e'.title, e'.url⟩] ∧
       s'.db.exclusions = s.db.exclusions ∧
       s'.db.schemaMigrations = s.db.schemaMigrations) ∧
    (∀ msg s', AddEventWithContent s e body rnd now = (.error msg, s') → s' = s) := by
  constructor
  · intro e' s' h
    simp only [AddEventWithContent] at h
    split at h
    · rename_i hc
      simp [hexcl] at hc
    · split at h
      · simp at h
      · split at h
        · simp at h
        · rename_i db1 heq1
          split at h
          · simp at h
          · rename_i db2 heq2
            unfold insertEventRow at heq1
            split at heq1
            · simp at heq1
            · simp only [Except.ok.injEq] at heq1
              unfold insertContentRow at heq2
              split at heq2
              · simp at heq2
              · split at heq2
                · simp at heq2
                · simp only [Except.ok.injEq] at heq2
                  simp only [Prod.mk.injEq, Except.ok.injEq] at h
                  obtain ⟨he, hs⟩ := h
                  subst he
                  refine ⟨by rw [withDefaultTs_hasBody], ?_, ?_, ?_, ?_, ?_⟩ <;>
                    rw [← hs, ← heq2, ← heq1]
  · intro msg s' h
    simp only [AddEventWithContent] at h
    split at h
    · simp at h
    · split at h
      · simp only [Prod.mk.injEq] at h
        exact h.2.symm
      · split at h
        · simp only [Prod.mk.injEq] at h
          exact h.2.symm
        · split at h
          · simp only [Prod.mk.injEq] at h
            exact h.2.symm
          · simp at h

/-- The event as `AddEventWithContent` persists it from `wEvent5`. -/
def wEvent2out : Event :=
  { wEvent5 with domain := "example.com", id := "CHR-01020304", hasBody := true }

/-- The store state after adding `wEvent5` with the body `hello` to the
empty store. -/
def wStore2out : SQLiteStore :=
  { emptyStore with db :=
    { emptyStore.db with
      events := [wEvent2out]
      content := [⟨"CHR-01020304", "hello", 5⟩]
      fts := [⟨"CHR-01020304", "T", "https://example.com/a"⟩] } }

/-- Witness for C2: a concrete transactional add appends all three rows
together. -/
theorem addEventWithContent_atomic_witness :
    isExcluded emptyStore (extractDomain wEvent5.url) = false ∧
    AddEventWithContent emptyStore wEvent5 "hello" [1, 2, 3, 4] 10 =
      (.ok wEvent2out, wStore2out) ∧
    (wEvent2out.hasBody = true ∧
     wStore2out.db.events = emptyStore.db.events ++ [wEvent2out] ∧
     wStore2out.db.content =
       emptyStore.db.content ++ [⟨wEvent2out.id, "hello", "hello".utf8ByteSize⟩] ∧
     wStore2out.db.fts =
       emptyStore.db.fts ++ [⟨wEvent2out.id, wEvent2out.title, wEvent2out.url⟩] ∧
     wStore2out.db.exclusions = emptyStore.db.exclusions ∧
     wStore2out.db.schemaMigrations = emptyStore.db.schemaMigrations) :=
  ⟨by decide, rfl,
   (addEventWithContent_atomic emptyStore wEvent5 "hello" [1, 2, 3, 4] 10
      (by decide)).1 wEvent2out wStore2out rfl⟩

/-- Helper: extensional properties of the plain filtered scan: sorted by
timestamp descending, drawn from the event table, only rows matching the
structured conditions, at most `limit` rows, and empty when nothing
matches. -/
theorem searchFiltered_spec (s : SQLiteStore) (q : SearchQuery) :
    List.Sorted tsDesc (searchFiltered s q) ∧
    (∀ e ∈ searchFiltered s q, e ∈ s.db.events ∧ matchesFilters q e = true) ∧
    (searchFiltered s q).length ≤ q.limit.toNat ∧
    ((∀ e ∈ s.db.events, matchesFilters q e = false) → searchFiltered s q = []) := by
  have hsub : List.Sublist (searchFiltered s q)
      ((s.db.events.filter (matchesFilters q)).insertionSort tsDesc) :=
    (List.take_sublist _ _).trans (List.drop_sublist _ _)
  refine ⟨?_, ?_, ?_, ?_⟩
  · exact List.Pairwise.sublist hsub (List.sorted_insertionSort tsDesc _)
  · intro e he
    have hmem : e ∈ (s.db.events.filter (matchesFilters q)).insertionSort tsDesc :=
      hsub.subset he
    rw [List.mem_insertionSort] at hmem
    exact List.mem_filter.mp hmem
  · show ((((s.db.events.filter (matchesFilters q)).insertionSort
        tsDesc).drop q.offset.toNat).take q.limit.toNat).length ≤ q.limit.toNat
    rw [List.length_take]
    exact min_le_left _ _
  · intro hnone
    have hfilter : s.db.events.filter (matchesFilters q) = [] :=
      List.filter_eq_nil_iff.mpr (fun a ha => by simp [hnone a ha])
    show (((s.db.events.filter (matchesFilters q)).insertionSort
        tsDesc).drop q.offset.toNat).take q.limit.toNat = []
    rw [hfilter]
    simp

/-- C9: with an empty free-text term, search is the plain filtered scan:
its results come from the event table and satisfy the optional
domain/source/time conditions, they are ordered by timestamp descending,
a non-positive limit is replaced by the default of fifty (bounding the
page length), and when nothing matches the result is the empty list. -/
theorem searchEvents_empty_query (s : SQLiteStore) (q : SearchQuery)
    (hq : q.query = "") :
    List.Sorted tsDesc (SearchEvents s q) ∧
    (∀ e ∈ SearchEvents s q, e ∈ s.db.events ∧ matchesFilters q e = true) ∧
    (SearchEvents s q).length ≤ (if q.limit ≤ 0 then (50 : Int) else q.limit).toNat ∧
    ((∀ e ∈ s.db.events, matchesFilters q e = false) → SearchEvents s q = []) ∧
    (q.offset ≤ 0 → SearchEvents s q = SearchEvents s { q with offset := 0 }) := by
  have hoffset : q.offset ≤ 0 → SearchEvents s q = SearchEvents s { q with offset := 0 } := by
    intro hoff
    have h0 : q.offset.toNat = (0 : Int).toNat := by
      rw [Int.toNat_of_nonpos hoff]; rfl
    show (let q1 := if q.limit ≤ 0 then { q with limit := 50 } else q
          if q1.query ≠ "" then searchFTS s q1 else searchFiltered s q1) = _
    by_cases hl : q.limit ≤ 0 <;>
      (simp only [SearchEvents, searchFiltered, searchFTS, hl, if_true, if_false, h0]; rfl)
  by_cases hl : q.limit ≤ 0
  · have hunfold : SearchEvents s q = searchFiltered s { q with limit := 50 } := by
      simp [SearchEvents, hl, hq]
    have hs := searchFiltered_spec s { q with limit := 50 }
    rw [if_pos hl]
    refine ⟨?_, ?_, ?_, ?_, hoffset⟩
    · rw [hunfold]; exact hs.1
    · rw [hunfold]; exact fun e he => hs.2.1 e he
    · rw [hunfold]; exact hs.2.2.1
    · rw [hunfold]; exact fun h => hs.2.2.2 (fun e he => h e he)
  · have hunfold : SearchEvents s q = searchFiltered s q := by
      simp [SearchEvents, hl, hq]
    have hs := searchFiltered_spec s q
    rw [if_neg hl]
    refine ⟨?_, ?_, ?_, ?_, hoffset⟩
    · rw [hunfold]; exact hs.1
    · rw [hunfold]; exact hs.2.1
    · rw [hunfold]; exact hs.2.2.1
    · rw [hunfold]; exact hs.2.2.2

/-- A store holding three events over two domains and three timestamps. -/
def wSearchStore : SQLiteStore :=
  { db := { emptyDB with events :=
      [{ id := "CHR-a1", url := "https://a.com/1", title := "one", domain := "a.com"
         ts := 10, source := "extension", browser := "", contentHash := ""
         hasBody := false, hasEmbed := false },
       { id := "CHR-a2", url := "https://a.com/2", title := "two", domain := "a.com"
         ts := 30, source := "extension", browser := "", contentHash := ""
         hasBody := false, hasEmbed := false },
       { id := "CHR-b1", url := "https://b.com/1", title := "three", domain := "b.com"
         ts := 20, source := "extension", browser := "", contentHash := ""
         hasBody := false, hasEmbed := false }] }
    domainExclusions := []
    regexExclusions := [] }

/-- An empty-text query filtered to one domain, with unspecified limit and
offset. -/
def wQuery : SearchQuery :=
  { query := "", domain := "a.com", source := "", since := 0, untilTs := 0
    limit := 0, offset := 0 }

/-- Witness for C9 at a concrete store and query. -/
theorem searchEvents_empty_query_witness :
    wQuery.query = "" ∧
    (List.Sorted tsDesc (SearchEvents wSearchStore wQuery) ∧
     (∀ e ∈ SearchEvents wSearchStore wQuery,
        e ∈ wSearchStore.db.events ∧ matchesFilters wQuery e = true) ∧
     (SearchEvents wSearchStore wQuery).length ≤
       (if wQuery.limit ≤ 0 then (50 : Int) else wQuery.limit).toNat ∧
     ((∀ e ∈ wSearchStore.db.events, matchesFilters wQuery e = false) →
        SearchEvents wSearchStore wQuery = []) ∧
     (wQuery.offset ≤ 0 →
        SearchEvents wSearchStore wQuery =
          SearchEvents wSearchStore { wQuery with offset := 0 })) :=
  ⟨rfl, searchEvents_empty_query wSearchStore wQuery rfl⟩

/-- An event used for the identifier-collision run. -/
def dupEvent : Event :=
  { id := "", url := "https://dup.example/x", title := "D", domain := ""
    ts := 7, source := "extension", browser := "", contentHash := ""
    hasBody := false, hasEmbed := false }

/-- The event as the first add persists it under entropy `0,0,0,0`. -/
def dupEventOut : Event :=
  { dupEvent with domain := "dup.example", id := "CHR-00000000" }

/-- The store after the first colliding add. -/
def dupStore1 : SQLiteStore :=
  { emptyStore with db :=
    { emptyStore.db with
      events := [dupEventOut]
      fts := [⟨"CHR-00000000", "D", "https://dup.example/x"⟩] } }

/-- C7 counterexample: when the entropy source repeats the same four
bytes, two events added in sequence through `AddEvent` have the SAME
generated identifier, not distinct ones; the second insert then fails on
the primary key instead of persisting under a distinct identifier. -/
theorem generateID_collision_counterexample :
    generateID [0, 0, 0, 0] = some "CHR-00000000" ∧
    AddEvent emptyStore dupEvent [0, 0, 0, 0] 9 = (.ok dupEventOut, dupStore1) ∧
    AddEvent dupStore1 dupEvent [0, 0, 0, 0] 9 =
      (.error "insert event: UNIQUE constraint failed: events.id", dupStore1) :=
  ⟨rfl, rfl, rfl⟩

/-- Injectivity of the hex-digit table below sixteen. -/
theorem hexDigit_inj : ∀ m < 16, ∀ n < 16, hexDigit m = hexDigit n → m = n := by
  decide

/-- C7 (amended): when two sequential `AddEvent` calls both persist, the
two identifiers are distinct, enforced by the primary-key check on the
event table; every generated identifier is the fixed prefix `CHR-`
followed by the hex encoding of exactly four random bytes, and two
generated identifiers coincide only when those four bytes coincide. -/
theorem addEvent_ids_distinct_on_success :
    (∀ (s : SQLiteStore) (e₁ e₂ : Event) (r₁ r₂ : List Nat) (n₁ n₂ : Nat)
        (e₁' e₂' : Event) (s₁ s₂ : SQLiteStore),
       AddEvent s e₁ r₁ n₁ = (.ok e₁', s₁) →
       AddEvent s₁ e₂ r₂ n₂ = (.ok e₂', s₂) →
       isExcluded s (extractDomain e₁.url) = false →
       isExcluded s₁ (extractDomain e₂.url) = false →
       e₁'.id ≠ e₂'.id) ∧
    (∀ rnd id, generateID rnd = some id →
       ∃ b₀ b₁ b₂ b₃, b₀ < 256 ∧ b₁ < 256 ∧ b₂ < 256 ∧ b₃ < 256 ∧
         id = "CHR-" ++ hexEncode [b₀, b₁, b₂, b₃]) ∧
    (∀ b₀ b₁ b₂ b₃ c₀ c₁ c₂ c₃ : Nat,
       b₀ < 256 → b₁ < 256 → b₂ < 256 → b₃ < 256 →
       c₀ < 256 → c₁ < 256 → c₂ < 256 → c₃ < 256 →
       "CHR-" ++ hexEncode [b₀, b₁, b₂, b₃] = "CHR-" ++ hexEncode [c₀, c₁, c₂, c₃] →
       b₀ = c₀ ∧ b₁ = c₁ ∧ b₂ = c₂ ∧ b₃ = c₃) := by
  refine ⟨?_, ?_, ?_⟩
  · intro s e₁ e₂ r₁ r₂ n₁ n₂ e₁' e₂' s₁ s₂ h1 h2 hex1 hex2
    rcases addEvent_ok_cases s e₁ r₁ n₁ e₁' s₁ h1 with ⟨hc, _, _⟩ | ⟨_, hev1, _, _⟩
    · rw [hc] at hex1; cases hex1
    rcases addEvent_ok_cases s₁ e₂ r₂ n₂ e₂' s₂ h2 with ⟨hc, _, _⟩ | ⟨_, _, _, hfree⟩
    · rw [hc] at hex2; cases hex2
    intro hid
    rw [List.any_eq_false] at hfree
    have hmem : e₁' ∈ s₁.db.events := by
      rw [hev1]
      exact List.mem_append_right _ (List.mem_singleton.mpr rfl)
    have := hfree e₁' hmem
    rw [hid] at this
    simp at this
  · intro rnd id h
    match rnd with
    | [] => simp [generateID] at h
    | [_] => simp [generateID] at h
    | [_, _] => simp [generateID] at h
    | [_, _, _] => simp [generateID] at h
    | b₀ :: b₁ :: b₂ :: b₃ :: _ =>
      simp only [generateID, Option.some.injEq] at h
      exact ⟨b₀ % 256, b₁ % 256, b₂ % 256, b₃ % 256,
        Nat.mod_lt _ (by omega), Nat.mod_lt _ (by omega),
        Nat.mod_lt _ (by omega), Nat.mod_lt _ (by omega), h.symm⟩
  · intro b₀ b₁ b₂ b₃ c₀ c₁ c₂ c₃ hb₀ hb₁ hb₂ hb₃ hc₀ hc₁ hc₂ hc₃ h
    have hdata := congrArg String.data h
    rw [String.data_append, String.data_append] at hdata
    have hlist := List.append_cancel_left hdata
    have h8 : hexDigit (b₀ / 16) :: hexDigit (b₀ % 16) ::
        hexDigit (b₁ / 16) :: hexDigit (b₁ % 16) ::
        hexDigit (b₂ / 16) :: hexDigit (b₂ % 16) ::
        hexDigit (b₃ / 16) :: hexDigit (b₃ % 16) :: ([] : List Char) =
        hexDigit (c₀ / 16) :: hexDigit (c₀ % 16) ::
        hexDigit (c₁ / 16) :: hexDigit (c₁ % 16) ::
        hexDigit (c₂ / 16) :: hexDigit (c₂ % 16) ::
        hexDigit (c₃ / 16) :: hexDigit (c₃ % 16) :: ([] : List Char) := hlist
    simp only [List.cons.injEq, and_true] at h8
    obtain ⟨q₀, m₀, q₁, m₁, q₂, m₂, q₃, m₃⟩ := h8
    have e₀ := hexDigit_inj (b₀ / 16) (by omega) (c₀ / 16) (by omega) q₀
    have f₀ := hexDigit_inj (b₀ % 16) (by omega) (c₀ % 16) (by omega) m₀
    have e₁ := hexDigit_inj (b₁ / 16) (by omega) (c₁ / 16) (by omega) q₁
    have f₁ := hexDigit_inj (b₁ % 16) (by omega) (c₁ % 16) (by omega) m₁
    have e₂ := hexDigit_inj (b₂ / 16) (by omega) (c₂ / 16) (by omega) q₂
    have f₂ := hexDigit_inj (b₂ % 16) (by omega) (c₂ % 16) (by omega) m₂
    have e₃ := hexDigit_inj (b₃ / 16) (by omega) (c₃ / 16) (by omega) q₃
    have f₃ := hexDigit_inj (b₃ % 16) (by omega) (c₃ % 16) (by omega) m₃
    exact ⟨by omega, by omega, by omega, by omega⟩

/-- A second event for the distinct-identifier witness. -/
def wEvent7 : Event :=
  { id := "", url := "https://other.example/y", title := "E", domain := ""
    ts := 8, source := "extension", browser := "", contentHash := ""
    hasBody := false, hasEmbed := false }

/-- The first event of the witness as persisted. -/
def wEvent7a : Event :=
  { dupEvent with domain := "dup.example", id := "CHR-01000000" }

/-- The second event of the witness as persisted. -/
def wEvent7b : Event :=
  { wEvent7 with domain := "other.example", id := "CHR-02000000" }

/-- The store after the first witness add. -/
def wStore7a : SQLiteStore :=
  { emptyStore with db :=
    { emptyStore.db with
      events := [wEvent7a]
      fts := [⟨"CHR-01000000", "D", "https://dup.example/x"⟩] } }

/-- The store after the second witness add. -/
def wStore7b : SQLiteStore :=
  { wStore7a with db :=
    { wStore7a.db with
      events := [wEvent7a, wEvent7b]
      fts := [⟨"CHR-01000000", "D", "https://dup.example/x"⟩,
              ⟨"CHR-02000000", "E", "https://other.example/y"⟩] } }

/-- Witness for the amended C7: two concrete sequential adds with
differing entropy persist distinct identifiers. -/
theorem addEvent_ids_distinct_on_success_witness :
    AddEvent emptyStore dupEvent [1, 0, 0, 0] 9 = (.ok wEvent7a, wStore7a) ∧
    AddEvent wStore7a wEvent7 [2, 0, 0, 0] 9 = (.ok wEvent7b, wStore7b) ∧
    isExcluded emptyStore (extractDomain dupEvent.url) = false ∧
    isExcluded wStore7a (extractDomain wEvent7.url) = false ∧
    wEvent7a.id ≠ wEvent7b.id :=
  ⟨rfl, rfl, by decide, by decide,
   addEvent_ids_distinct_on_success.1 emptyStore dupEvent wEvent7 [1, 0, 0, 0]
     [2, 0, 0, 0] 9 9 wEvent7a wEvent7b wStore7a wStore7b rfl rfl (by decide) (by decide)⟩

/-- An event whose URL host differs from the seeded rule `chase.com` only
in letter case. -/
def caseEvent : Event :=
  { id := "", url := "https://Chase.com/login", title := "C", domain := ""
    ts := 3, source := "extension", browser := "", contentHash := ""
    hasBody := false, hasEmbed := false }

/-- The case-variant event as `AddEvent` persists it on the seeded store. -/
def caseEventOut : Event :=
  { caseEvent with domain := "Chase.com", id := "CHR-00000007" }

/-- C10: exclusion matching is an exact, case-sensitive comparison on the
derived domain with no normalization: the seeded rule blocks `chase.com`
but not any case variant of it (shown generally for every string whose
letters lowercase to `chase.com` yet differs from it), the hostname is
extracted preserving case, and `AddEvent` persists a `Chase.com` event on
the seeded store, bypassing the denylist. -/
theorem isExcluded_case_sensitive :
    (∀ (st : SQLiteStore) (d : String),
       isExcluded st d =
         (st.domainExclusions.any (fun x => x == d) ||
          st.regexExclusions.any (fun re => re.matchString d))) ∧
    isExcluded seededStore "chase.com" = true ∧
    isExcluded seededStore "Chase.com" = false ∧
    extractDomain "https://Chase.com/login" = "Chase.com" ∧
    (∀ v : String, v.data.map Char.toLower = "chase.com".data → v ≠ "chase.com" →
       isExcluded seededStore v = false) ∧
    AddEvent seededStore caseEvent [0, 0, 0, 7] 9 =
      (.ok caseEventOut,
       { seededStore with db :=
         { seededStore.db with
           events := [caseEventOut]
           fts := [⟨"CHR-00000007", "C", "https://Chase.com/login"⟩] } }) := by
  refine ⟨fun _ _ => rfl, by decide, by decide, by decide, ?_, by rfl⟩
  intro v hmap hne
  unfold isExcluded
  rw [Bool.or_eq_false_iff]
  constructor
  · rw [List.any_eq_false]
    intro d hd
    rw [show seededStore.domainExclusions =
      ["chase.com", "bankofamerica.com", "wellsfargo.com", "citi.com",
       "capitalone.com", "usbank.com", "schwab.com", "fidelity.com",
       "vanguard.com", "paypal.com", "venmo.com", "1password.com",
       "bitwarden.com", "lastpass.com", "dashlane.com", "accounts.google.com",
       "login.microsoftonline.com", "auth0.com", "okta.com", "mychart.com",
       "patient.myuhc.com", "irs.gov", "turbotax.intuit.com"] from by decide] at hd
    simp only [beq_iff_eq]
    intro hdv
    subst hdv
    fin_cases hd <;> first
      | exact hne rfl
      | exact absurd hmap (by decide)
  · rw [List.any_eq_false]
    intro re hre
    rw [show seededStore.regexExclusions =
      [RegexPat.dotXxxSuffix, RegexPat.pornhubSuffix] from by decide] at hre
    fin_cases hre
    · show ¬ RegexPat.matchString .dotXxxSuffix v = true
      unfold RegexPat.matchString hasSuffix
      rw [decide_eq_true_eq]
      intro hsuf
      have h2 := congrArg (List.map Char.toLower) hsuf
      rw [List.map_take, List.map_reverse] at h2
      simp only [String.toList] at h2
      rw [hmap] at h2
      exact absurd h2 (by decide)
    · show ¬ RegexPat.matchString .pornhubSuffix v = true
      unfold RegexPat.matchString hasSuffix
      rw [decide_eq_true_eq]
      intro hsuf
      have h2 := congrArg (List.map Char.toLower) hsuf
      rw [List.map_take, List.map_reverse] at h2
      simp only [String.toList] at h2
      rw [hmap] at h2
      exact absurd h2 (by decide)

/-- Witness for C10: the concrete case variant `Chase.com` slips past the
seeded denylist. -/
theorem isExcluded_case_sensitive_witness :
    "Chase.com".data.map Char.toLower = "chase.com".data ∧
    "Chase.com" ≠ "chase.com" ∧
    isExcluded seededStore "Chase.com" = false :=
  ⟨by decide, by decide,
   isExcluded_case_sensitive.2.2.2.2.1 "Chase.com" (by decide) (by decide)⟩
